import Mathlib

/-!
Verification development for the drawbridge schema-migration engine.

The Go sources are shallowly embedded: pure helpers become Lean functions,
the database becomes an explicit state value threaded through the engine,
Go's `(T, error)` returns become `Except`, and a Go runtime panic is
modelled as `Option.none`.  The embedding follows the current revision of
`migrations/migrate.go` (the variant carrying `ErrUpDownBlocksNotFound` and
the wrapped execution error), `migrations/rollback.go`,
`postgres/std/tx.go` and `sqlite/tx.go`.
-/

namespace Drawbridge

/-- Direction of a migration run, mirroring `migrations.Direction` (`up`,
`down`, `none`). -/
inductive Direction
  | up
  | down
  | none
deriving DecidableEq, Repr

/-- The `Latest` sentinel revision (`migrations.Latest = -1`). -/
def Latest : Int := -1

/-- Errors surfaced by the reader collaborator, mirroring Go's I/O errors:
`notExist` is the case recognized by `os.IsNotExist`. -/
inductive IoErr
  | notExist
  | other (msg : String)
deriving DecidableEq, Repr

/-- Message rendering of an I/O error, standing for Go's `err.Error()`. -/
def ioMsg : IoErr → String
  | .notExist => "file does not exist"
  | .other msg => msg

/-- Errors produced by the migrations engine.  Each constructor stands for
one of the Go error values or wrapped errors in `migrations/migrate.go` and
`migrations/rollback.go`. -/
inductive MigErr
  | invalidFilename (name : String)
  | atoiFailed (s : String)
  | invalidDirectory (msg : String)
  | noUpDownBlocks
  | execFailed (path : String) (dir : Direction) (underlying : String)
  | rollbackComplete
  | scanNull (migration : String)
  | sqlError (msg : String)
deriving DecidableEq, Repr

instance {ε α : Type} [DecidableEq ε] [DecidableEq α] : DecidableEq (Except ε α) := fun x y =>
  match x, y with
  | .ok a, .ok b =>
    if h : a = b then isTrue (by rw [h]) else isFalse (by simp [h])
  | .error a, .error b =>
    if h : a = b then isTrue (by rw [h]) else isFalse (by simp [h])
  | .ok _, .error _ => isFalse (by simp)
  | .error _, .ok _ => isFalse (by simp)

/-- Characters matched by `\s` in Go's regexp package. -/
def wsChar (c : Char) : Bool :=
  c == ' ' || c == '\t' || c == '\n' || c == '\x0c' || c == '\r'

/-- Whether `pat` is an initial segment of `cs`. -/
def leadsWith : List Char → List Char → Bool
  | [], _ => true
  | _ :: _, [] => false
  | p :: ps, c :: cs => p == c && leadsWith ps cs

/-- Matches one line against the directive regexp
`^---\s+!(Up|Down).*$` (`dirRe` in `migrations/migrate.go`), returning the
direction named by the capture group when the line is a directive: three
dashes, at least one whitespace character, then `!Up` or `!Down`, with
arbitrary trailing text. -/
def isDirective (line : String) : Option Direction :=
  let cs := line.data
  if leadsWith ['-', '-', '-'] cs then
    let rest := cs.drop 3
    let trimmed := rest.dropWhile wsChar
    if trimmed.length < rest.length then
      if leadsWith ['!', 'U', 'p'] trimmed then some .up
      else if leadsWith ['!', 'D', 'o', 'w', 'n'] trimmed then some .down
      else Option.none
    else Option.none
  else Option.none

/-- The scanner loop of `ReadSQL`: `parsing` tracks whether the requested
section is currently open, `valid` whether any line was ever accumulated,
`acc` the accumulated SQL text (each kept line followed by a newline). -/
def scanGo (d : Direction) : List String → Bool → Bool → String → Except MigErr String
  | [], _, valid, acc => if valid then .ok acc else .error .noUpDownBlocks
  | l :: ls, parsing, valid, acc =>
    match isDirective l with
    | some dir => if dir = d then scanGo d ls true valid acc else scanGo d ls false valid acc
    | Option.none =>
      if parsing then scanGo d ls parsing true (acc ++ l ++ "\n")
      else scanGo d ls parsing valid acc

/-- The body of `ReadSQL` once the file has been read and split into lines. -/
def readSQLLines (lines : List String) (d : Direction) : Except MigErr String :=
  scanGo d lines false false ""

/-- Embedding of `ReadSQL(reader, path, direction)`.  The result of
`reader.Read(path)` is passed in as an `Except`: the Go code returns
`"", nil` when the read itself fails (the error is discarded). -/
def ReadSQL (file : Except IoErr (List String)) (d : Direction) : Except MigErr String :=
  match file with
  | .error _ => .ok ""
  | .ok lines => readSQLLines lines d

/-- Specification-side scanner state: which section is currently open. -/
def sectionGo (d : Direction) : List String → Option Direction → List String
  | [], _ => []
  | l :: ls, cur =>
    match isDirective l with
    | some dir => sectionGo d ls (some dir)
    | Option.none =>
      if cur = some d then l :: sectionGo d ls cur else sectionGo d ls cur

/-- The lines belonging to the `d` sections of a migration text, per the
spec's description of the directive parser: a directive line opens its
section and closes the previous one; other lines belong to the open
section; lines before any directive belong to no section. -/
def sectionLines (d : Direction) (lines : List String) : List String :=
  sectionGo d lines Option.none

/-- Renders a list of retained lines the way the scanner accumulates them:
each line followed by a newline. -/
def linesToSQL : List String → String
  | [] => ""
  | l :: ls => l ++ "\n" ++ linesToSQL ls

/-- Splits a character list on a separator, keeping empty segments, as
Go's `strings.Split` does. -/
def splitChar (sep : Char) : List Char → List Char → List (List Char)
  | [], acc => [acc.reverse]
  | c :: cs, acc =>
    if c == sep then acc.reverse :: splitChar sep cs []
    else splitChar sep cs (c :: acc)

/-- Embedding of `Filename(path)`: the final path segment (Go splits on
`os.PathSeparator`, modelled as the slash). -/
def FileName (path : String) : String :=
  String.mk ((splitChar '/' path.data []).getLastD path.data)

/-- The effect of Go's `strings.SplitN(s, "-", 2)`: the segment before the
first dash and the remainder, or nothing when the string has no dash. -/
def splitFirstDash : List Char → Option (List Char × List Char)
  | [] => Option.none
  | c :: cs =>
    if c == '-' then some ([], cs)
    else (splitFirstDash cs).map (fun p => (c :: p.1, p.2))

/-- Embedding of `strconv.Atoi`: an optional sign followed by at least one
decimal digit.  Machine-word overflow is not modelled; revision numbers in
the claims stay far below it. -/
def atoi (s : String) : Except MigErr Int :=
  let signed : Int × List Char :=
    match s.data with
    | '-' :: rest => (-1, rest)
    | '+' :: rest => (1, rest)
    | cs => (1, cs)
  if signed.2.isEmpty then .error (.atoiFailed s)
  else if signed.2.all Char.isDigit then
    .ok (signed.1 * (signed.2.foldl (fun acc c => acc * 10 + (c.toNat - '0'.toNat)) 0 : Nat))
  else .error (.atoiFailed s)

/-- Embedding of `Revision(filename)`: the integer before the first dash of
the base name; an error when the base name has no dash or the segment is
not an integer. -/
def Revision (filename : String) : Except MigErr Int :=
  match splitFirstDash (FileName filename).data with
  | Option.none => .error (.invalidFilename filename)
  | some seg => atoi (String.mk seg.1)

/-- Revision with parse failures collapsed to 0, as in Go call sites that
discard the error (`m, _ := Revision(migration)`), and as the spec defines
the sort key for identifiers that fail to parse. -/
def revOr0 (s : String) : Int :=
  match Revision s with
  | .ok v => v
  | .error _ => 0

/-- Embedding of `IsUp`. -/
def IsUp (version desired : Int) : Bool :=
  desired == Latest || version ≤ desired

/-- Embedding of `IsDown`. -/
def IsDown (version desired : Int) : Bool :=
  desired < version

/-- Ascending comparison used for the up-direction candidate order.
Modelled from the spec: `SortAscending` orders identifiers by parsed
revision, with identifiers that fail to parse sorting as revision 0 (the
`SortUp` type itself is not among the provided sources). -/
def upRel (a b : String) : Prop := revOr0 a ≤ revOr0 b

/-- Descending comparison used for the down-direction candidate order.
Modelled from the spec: `SortDescending` orders identifiers by parsed
revision, descending, parse failures sorting as revision 0 (the `SortDown`
type itself is not among the provided sources). -/
def downRel (a b : String) : Prop := revOr0 b ≤ revOr0 a

instance : DecidableRel upRel := fun _ _ => Int.decLe _ _

instance : DecidableRel downRel := fun _ _ => Int.decLe _ _

instance : IsTotal String upRel := ⟨fun _ _ => le_total _ _⟩

instance : IsTrans String upRel := ⟨fun _ _ _ hab hbc => le_trans hab hbc⟩

instance : IsTotal String downRel := ⟨fun _ _ => le_total _ _⟩

instance : IsTrans String downRel := ⟨fun _ _ _ hab hbc => le_trans hbc hab⟩

/-- Sort migration identifiers ascending by revision (`sort.Sort(SortUp(...))`). -/
def sortUp (l : List String) : List String := l.insertionSort upRel

/-- Sort migration identifiers descending by revision (`sort.Sort(SortDown(...))`). -/
def sortDown (l : List String) : List String := l.insertionSort downRel

/-- One row of the metadata table: `migration varchar primary key,
rollback text` — `rollback` is nullable, hence an `Option`. -/
structure MetaRow where
  migration : String
  rollback : Option String
deriving DecidableEq, Repr

/-- The abstract database state seen by the migrations engine: the metadata
table rows, the log of executed SQL bodies, a count of transactions begun,
and the set of SQL strings whose execution the backend rejects (modelling
`Exec` failures). -/
structure Db where
  meta : List MetaRow
  executed : List String
  txs : Nat
  failOn : List String
deriving DecidableEq, Repr

/-- The message produced when the backend rejects a statement. -/
def execMsg (s : String) : String := "exec failed: " ++ s

/-- Executing one SQL body against the database: fails exactly on the
statements in `failOn`, otherwise appends to the execution log. -/
def execSql (db : Db) (s : String) : Except String Db :=
  if db.failOn.contains s then .error (execMsg s)
  else .ok {db with executed := db.executed ++ [s]}

/-- Embedding of `IsMigrated`: existence check by primary key, the query
parameter being `Filename(migration)`. -/
def isMigrated (db : Db) (migration : String) : Bool :=
  db.meta.any (fun r => r.migration == FileName migration)

/-- Embedding of `ShouldRun(ctx, span, metadataTable, migration, direction,
revision)`. -/
def ShouldRun (direction : Direction) (revision : Int) (db : Db) (migration : String) : Bool :=
  match Revision migration with
  | .error _ => false
  | .ok version =>
    match direction with
    | .up => IsUp version revision && !(isMigrated db migration)
    | .down => IsDown version revision && isMigrated db migration
    | .none => false

/-- The `strings.HasSuffix(name, ".sql")` filter of `Available`. -/
def hasSqlSuffix (name : String) : Bool :=
  leadsWith ['l', 'q', 's', '.'] name.data.reverse

/-- The reader collaborator: the directory listing and the per-path file
contents, both fallible, each file given as its list of lines. -/
structure Reader where
  files : Except IoErr (List String)
  read : String → Except IoErr (List String)

/-- Embedding of `Available(reader, directory, direction)`: a missing
directory yields an empty list without error; any other listing error is
wrapped; otherwise the `.sql` entries sorted for the direction. -/
def Available (r : Reader) (direction : Direction) : Except MigErr (List String) :=
  match r.files with
  | .error .notExist => .ok []
  | .error e => .error (.invalidDirectory ("invalid migrations directory: " ++ ioMsg e))
  | .ok files =>
    let filenames := files.filter (fun name => hasSqlSuffix name)
    .ok (if direction = .down then sortDown filenames else sortUp filenames)

/-- The first parseable revision of a descending candidate list (the loop
body of `LatestRevision`). -/
def firstRevision : List String → Int
  | [] => 0
  | f :: fs =>
    match Revision f with
    | .ok v => v
    | .error _ => firstRevision fs

/-- Embedding of `LatestRevision(reader, directory)`. -/
def LatestRevision (r : Reader) : Int :=
  match Available r .down with
  | .error _ => 0
  | .ok migrations => if migrations.isEmpty then 0 else firstRevision migrations

/-- Embedding of `LatestMigration`: scans all recorded identifiers keeping
the one with the highest revision, parse failures counting as 0. -/
def LatestMigration (db : Db) : String :=
  db.meta.foldl (fun latest row =>
    if revOr0 latest < revOr0 row.migration then row.migration else latest) ""

/-- Embedding of `Moving(ctx, span, metadataTable, version)`. -/
def Moving (db : Db) (version : Int) : Direction :=
  if version = Latest then .up
  else if LatestMigration db = "" then .up
  else
    match Revision (LatestMigration db) with
    | .error _ => .none
    | .ok revision =>
      if revision < version then .up
      else if version < revision then .down
      else .none

/-- The in-memory migration task (`Migration` struct): reader, directory,
resolved direction, target revision and the embedded-rollbacks flag.  The
metadata table name is implicit in the `Db` state. -/
structure MigCtx where
  reader : Reader
  directory : String
  direction : Direction
  revision : Int
  rollbacks : Bool

/-- Path of a candidate inside the migrations directory
(`fmt.Sprintf("%s%c%s", directory, os.PathSeparator, migration)`). -/
def pathOf (directory migration : String) : String :=
  directory ++ "/" ++ migration

/-- Characters trimmed by Go's `strings.TrimSpace` (the ASCII portion of
Unicode white space, which is all the SQL bodies involved here use). -/
def goSpace (c : Char) : Bool :=
  c == ' ' || c == '\t' || c == '\n' || c == '\x0b' || c == '\x0c' || c == '\r'

/-- Go's `strings.TrimSpace`: removes leading and trailing white space. -/
def trimSpace (s : String) : String :=
  String.mk (((s.data.dropWhile goSpace).reverse.dropWhile goSpace).reverse)

/-- Embedding of `UpdateRollback(ctx, span, reader, metadataTable, path)`
from `migrations/rollback.go`: if a metadata row for the migration already
exists the function returns immediately; otherwise it reads the trimmed
down-section SQL and issues an `update ... set rollback` for that
migration (which matches no row in that case). -/
def UpdateRollback (m : MigCtx) (db : Db) (path : String) : Except MigErr Db :=
  let filename := FileName path
  let rowExists := db.meta.any (fun r => r.migration == filename)
  if rowExists then .ok db
  else
    match ReadSQL (m.reader.read path) .down with
    | .error e => .error e
    | .ok downSQL =>
      let downSQL := trimSpace downSQL
      .ok {db with meta := db.meta.map (fun r =>
        if r.migration == filename then {r with rollback := some downSQL} else r)}

/-- Embedding of `Migrated(ctx, span, reader, metadataTable, path,
direction, rollbacks)`: delete the tracking row for `down`, insert it
(rollback column NULL) otherwise, then store the embedded rollback when
enabled. -/
def Migrated (m : MigCtx) (db : Db) (path : String) : Except MigErr Db :=
  let filename := FileName path
  if m.direction = .down then
    .ok {db with meta := db.meta.filter (fun r => !(r.migration == filename))}
  else
    let db := {db with meta := db.meta ++ [⟨filename, Option.none⟩]}
    if m.rollbacks then UpdateRollback m db path else .ok db

/-- Embedding of `Migration.ReadAndApply(ctx, path)`: begin a transaction,
lock the metadata, and when `ShouldRun` holds read the direction's SQL,
execute it (wrapping a failure with the migration path and direction), and
record the migration; an error rolls the whole transaction back, so the
caller's state is unchanged in that case. -/
def ReadAndApply (m : MigCtx) (db : Db) (path : String) : Except MigErr Db :=
  let db := {db with txs := db.txs + 1}
  if ShouldRun m.direction m.revision db path then
    match ReadSQL (m.reader.read path) m.direction with
    | .error e => .error e
    | .ok SQL =>
      match execSql db SQL with
      | .error underlying => .error (.execFailed path m.direction underlying)
      | .ok db =>
        match Migrated m db path with
        | .error e => .error e
        | .ok db => .ok db
  else .ok db

/-- The candidate loop of `Options.Apply`: run each candidate in order and
abort on the first error.  The returned state keeps every transaction that
already committed; the error, if any, is the one that aborted the run. -/
def applyLoop (m : MigCtx) : Db → List String → Db × Option MigErr
  | db, [] => (db, Option.none)
  | db, c :: cs =>
    match ReadAndApply m db (pathOf m.directory c) with
    | .ok db2 => applyLoop m db2 cs
    | .error e => (db, some e)

/-- The `select migration from <metadataTable>` scan (`Applied`). -/
def Applied (db : Db) : List String :=
  db.meta.map (fun r => r.migration)

/-- First row of `select rollback from <metadataTable> where migration = $1`:
`Option.none` is `sql.ErrNoRows`; `some Option.none` is a row whose
`rollback` column is NULL (scanning it into a string fails). -/
def lookupRollback (db : Db) (migration : String) : Option (Option String) :=
  (db.meta.find? (fun r => r.migration == migration)).map (fun r => r.rollback)

/-- Embedding of `Migration.Rollback(ctx, migration)`: a fresh transaction
per migration; stop with `rollbackComplete` at or below the target; skip
silently when the lookup finds no row; otherwise execute the stored SQL if
non-empty, delete the row and commit. -/
def RollbackOne (target : Int) (db : Db) (migration : String) : Except MigErr Db :=
  let db := {db with txs := db.txs + 1}
  match Revision migration with
  | .error e => .error e
  | .ok migrationRevision =>
    if migrationRevision ≤ target then .error .rollbackComplete
    else
      match lookupRollback db migration with
      | Option.none => .ok db
      | some Option.none => .error (.scanNull migration)
      | some (some downSQL) =>
        match (if downSQL = "" then .ok db else execSql db downSQL) with
        | .error u => .error (.sqlError u)
        | .ok db2 =>
          .ok {db2 with meta := db2.meta.filter (fun r => !(r.migration == migration))}

/-- The loop of `Migration.ApplyRollbacks`: `rollbackComplete` breaks the
loop without error; any other error aborts; otherwise continue with the
committed state. -/
def rollbackLoop (target : Int) : Db → List String → Db × Option MigErr
  | db, [] => (db, Option.none)
  | db, mg :: ms =>
    match RollbackOne target db mg with
    | .error .rollbackComplete => (db, Option.none)
    | .error e => (db, some e)
    | .ok db2 => rollbackLoop target db2 ms

/-- Embedding of `Migration.ApplyRollbacks(ctx)`: the applied identifiers,
sorted descending, fed to the rollback loop. -/
def ApplyRollbacks (target : Int) (db : Db) : Db × Option MigErr :=
  rollbackLoop target db (sortDown (Applied db))

/-- Embedding of `Migration.HandleEmbeddedRollbacks(ctx, directory)`: a
`Latest` target is re-resolved against the available files first. -/
def HandleEmbeddedRollbacks (r : Reader) (revision : Int) (db : Db) : Db × Option MigErr :=
  let target := if revision = Latest then LatestRevision r else revision
  ApplyRollbacks target db

/-- Embedding of `Options.Apply(ctx, span)`.  The metadata bootstrap
(`CreateMetadata`) is modelled as always succeeding: the metadata table is
part of the `Db` state.  The result pairs the database state (committed
transactions persist even when the run aborts) with the error, if any. -/
def Apply (reader : Reader) (directory : String) (revision : Int) (rollbacks : Bool)
    (db : Db) : Db × Option MigErr :=
  let direction := Moving db revision
  match Available reader direction with
  | .error e => (db, some e)
  | .ok migrations =>
    let m : MigCtx := ⟨reader, directory, direction, revision, rollbacks⟩
    match applyLoop m db migrations with
    | (db2, some e) => (db2, some e)
    | (db2, Option.none) =>
      if rollbacks then HandleEmbeddedRollbacks reader revision db2
      else (db2, Option.none)

/-! Transaction-layer models: `postgres/std/tx.go` and `sqlite/tx.go`. -/

/-- The per-level state of the subtransaction stack (`txState`). -/
inductive TxState
  | pending
  | commit
deriving DecidableEq, Repr

/-- Errors surfaced by the transaction wrappers: the drawbridge sentinel
errors plus `sql.ErrTxDone` from the underlying `database/sql` handle. -/
inductive TxErr
  | errRolledBack
  | errCommitted
  | errTxDone
deriving DecidableEq, Repr

/-- State of the underlying `*sql.Tx`. -/
inductive UTx
  | active
  | committedU
  | rolledBackU
deriving DecidableEq, Repr

/-- Underlying `(*sql.Tx).Commit`: succeeds once, `sql.ErrTxDone` after. -/
def uCommit : UTx → Option TxErr × UTx
  | .active => (Option.none, .committedU)
  | u => (some .errTxDone, u)

/-- Underlying `(*sql.Tx).Rollback`: succeeds once, `sql.ErrTxDone` after. -/
def uRollback : UTx → Option TxErr × UTx
  | .active => (Option.none, .rolledBackU)
  | u => (some .errTxDone, u)

/-- The `std.Tx` wrapper: the underlying transaction, the `depth` stack of
subtransaction states, and the `inRollback` flag. -/
structure StdTx where
  utx : UTx
  depth : List TxState
  inRollback : Bool
deriving DecidableEq, Repr

/-- A freshly begun top-level `std.Tx` (`newTx`): one pending level. -/
def newStdTx : StdTx := ⟨.active, [.pending], false⟩

/-- The `current()` helper reads `depth[len(depth)-1]`; on an empty stack
the Go code indexes out of range, modelled as `Option.none`. -/
def stdCurrent (tx : StdTx) : Option TxState := tx.depth.getLast?

/-- The `pop()` helper drops the top of the `depth` stack. -/
def stdPop (tx : StdTx) : StdTx := {tx with depth := tx.depth.dropLast}

/-- The `state(value)` helper overwrites `depth[len(depth)-1]`. -/
def stdSetState (tx : StdTx) (v : TxState) : StdTx :=
  {tx with depth := tx.depth.dropLast ++ [v]}

/-- Embedding of `std.Tx.Close`: the whole result is `Option.none` when the
Go code crashes (current() on an empty depth stack); otherwise the pair of
the returned error and the popped transaction. -/
def stdClose (tx : StdTx) : Option (Option TxErr × StdTx) :=
  match stdCurrent tx with
  | Option.none => Option.none
  | some st =>
    if st ≠ .pending then some (Option.none, stdPop tx)
    else
      let tx := {tx with inRollback := true}
      let r := uRollback tx.utx
      some (r.1, stdPop {tx with utx := r.2})

/-- Embedding of `std.Tx.Commit`. -/
def stdCommit (tx : StdTx) : Option (Option TxErr × StdTx) :=
  if tx.inRollback then some (some .errRolledBack, tx)
  else
    match stdCurrent tx with
    | Option.none => Option.none
    | some st =>
      if st = .commit then some (some .errCommitted, tx)
      else
        let tx := stdSetState tx .commit
        if tx.depth.length = 1 then
          let r := uCommit tx.utx
          some (r.1, {tx with utx := r.2})
        else some (Option.none, tx)

/-- The `sqlite.Tx` wrapper: the underlying transaction, whether this value
is a pseudo-nested transaction (`parent != nil`), its `state` field
(0 pending, 1 committed, 2 rolled back), and whether it has marked its
parent rolled back. -/
structure LiteTx where
  utx : UTx
  isNested : Bool
  state : Nat
  parentMarkedRolledBack : Bool
deriving DecidableEq, Repr

/-- A freshly begun top-level `sqlite.Tx`. -/
def newLiteTx : LiteTx := ⟨.active, false, 0, false⟩

/-- Embedding of `sqlite.Tx.Close`. -/
def liteClose (tx : LiteTx) : Option TxErr × LiteTx :=
  if !tx.isNested then
    if tx.state = 1 then (Option.none, tx)
    else
      let r := uRollback tx.utx
      (r.1, {tx with utx := r.2})
  else
    (Option.none,
      if tx.state ≠ 1 then {tx with parentMarkedRolledBack := true} else tx)

/-- Embedding of `sqlite.Tx.Commit`. -/
def liteCommit (tx : LiteTx) : Option TxErr × LiteTx :=
  if !tx.isNested then
    if tx.state = 2 then (some .errTxDone, tx)
    else
      let tx := {tx with state := 1}
      let r := uCommit tx.utx
      (r.1, {tx with utx := r.2})
  else
    if tx.state = 2 then (some .errTxDone, tx)
    else (Option.none, {tx with state := 1})

/-! Metadata-store model: `postgres/std` `CreateMetadata` and its name
validation. -/

/-- Validation errors of the postgres metadata store. -/
inductive PgErr
  | invalidSchemaName
  | invalidTableName
  | tableNameRequired
deriving DecidableEq, Repr

/-- The state of the postgres database as seen by `CreateMetadata`:
existing schemas, existing relations (schema, table), the log of executed
DDL statements, and a count of queries issued (every probe of
`information_schema`/`pg_catalog` touches the database). -/
structure PgDb where
  schemas : List String
  relations : List (String × String)
  ddl : List String
  queries : Nat
deriving DecidableEq, Repr

/-- The identifier pattern `^[a-zA-Z_][a-zA-Z0-9_]*$` (`validObjName`). -/
def validObjName (s : String) : Bool :=
  match s.data with
  | [] => false
  | c :: cs => (c.isAlpha || c == '_') && cs.all (fun d => d.isAlphanum || d == '_')

/-- Embedding of `createSchemaStmt`: an empty schema yields an empty
statement and no error. -/
def createSchemaStmt (schema : String) : Except PgErr String :=
  if schema = "" then .ok ""
  else if !validObjName schema then .error .invalidSchemaName
  else .ok ("create schema if not exists " ++ schema)

/-- Embedding of `metadataName`: validates both names and combines them. -/
def metadataName (schema table : String) : Except PgErr String :=
  if schema ≠ "" && !validObjName schema then .error .invalidSchemaName
  else if table = "" then .error .tableNameRequired
  else if !validObjName table then .error .invalidTableName
  else .ok (schema ++ "." ++ table)

/-- Embedding of `createTableStmt`. -/
def createTableStmt (metadataTable : String) : String :=
  "create table " ++ metadataTable ++
    "(migration varchar(1024) not null primary key, rollback text)"

/-- Embedding of `missingMetadataSchema`: a blank schema reports not
missing without touching the database; otherwise one query is issued. -/
def missingMetadataSchema (st : PgDb) (schema : String) : Bool × PgDb :=
  if schema = "" then (false, st)
  else (!(st.schemas.contains schema), {st with queries := st.queries + 1})

/-- Embedding of `missingMetadataTable`: a blank schema defaults to
`public`; one query is issued. -/
def missingMetadataTable (st : PgDb) (schema table : String) : Bool × PgDb :=
  let schema := if schema = "" then "public" else schema
  (!(st.relations.contains (schema, table)), {st with queries := st.queries + 1})

/-- Embedding of `DB.CreateMetadata(ctx, schema, table)`: validate and
maybe create the schema, then validate the combined name, then maybe
create the table.  The state is threaded so that side effects performed
before an error remain visible. -/
def CreateMetadata (st : PgDb) (schema table : String) : PgDb × Except PgErr String :=
  match createSchemaStmt schema with
  | .error e => (st, .error e)
  | .ok stmt =>
    let st :=
      if stmt ≠ "" then
        let probe := missingMetadataSchema st schema
        if probe.1 then
          {probe.2 with schemas := probe.2.schemas ++ [schema], ddl := probe.2.ddl ++ [stmt]}
        else probe.2
      else st
    match metadataName schema table with
    | .error e => (st, .error e)
    | .ok name =>
      let probe := missingMetadataTable st schema table
      let st :=
        if probe.1 then
          {probe.2 with
            relations := probe.2.relations ++
              [(if schema = "" then "public" else schema, table)],
            ddl := probe.2.ddl ++ [createTableStmt name]}
        else probe.2
      (st, .ok name)

/-! Hypothesis helpers and concrete fixtures used by the theorems below. -/

/-- A candidate path is covered for an up-run to `target`: its revision
fails to parse, is out of range, or it is already recorded as applied. -/
def upToDateFor (db : Db) (target : Int) (path : String) : Bool :=
  match Revision path with
  | .error _ => true
  | .ok v => !(IsUp v target) || isMigrated db path

/-- A metadata row whose revision parses and does not exceed `target`. -/
def rowBelow (target : Int) (row : MetaRow) : Bool :=
  match Revision row.migration with
  | .ok v => v ≤ target
  | .error _ => false

/-- Fixture: a directory of three migrations with up and down bodies. -/
def exReader : Reader where
  files := .ok ["1-a.sql", "2-b.sql", "3-c.sql"]
  read := fun p =>
    if p = "sql/1-a.sql" then .ok ["--- !Up", "create a;", "--- !Down", "drop a;"]
    else if p = "sql/2-b.sql" then .ok ["--- !Up", "create b;", "--- !Down", "drop b;"]
    else if p = "sql/3-c.sql" then .ok ["--- !Up", "create c;", "--- !Down", "drop c;"]
    else .error .notExist

/-- Fixture: an empty database. -/
def exDbEmpty : Db := ⟨[], [], 0, []⟩

/-- Fixture: migrations 1 and 3 applied but not 2 (a gap below revision 3),
as happens when migration file 2 appeared after 1 and 3 were applied. -/
def exDbGap : Db := ⟨[⟨"1-a.sql", Option.none⟩, ⟨"3-c.sql", Option.none⟩], [], 0, []⟩

/-- Fixture: two applied migrations with stored rollback SQL. -/
def exDbRb : Db := ⟨[⟨"1-a.sql", some "drop a;"⟩, ⟨"3-c.sql", some "drop c;"⟩], [], 0, []⟩

/-- Fixture: a single migration whose up body the backend rejects. -/
def failReader : Reader where
  files := .ok ["1-a.sql"]
  read := fun p =>
    if p = "sql/1-a.sql" then .ok ["--- !Up", "boom;", "--- !Down", "unboom;"]
    else .error .notExist

/-- Fixture: the task for `failReader`. -/
def failCtx : MigCtx := ⟨failReader, "sql", .up, Latest, true⟩

/-- Fixture: an empty database that rejects the body of `1-a.sql`. -/
def exDbFail : Db := ⟨[], [], 0, ["boom;\n"]⟩

/-! Theorems.  First the parser correspondence, then one theorem (plus
counterexamples and witnesses) per claim. -/

/-- The scanner agrees with the specification-side section extraction: from
any intermediate state, it returns the accumulator followed by the remaining
section lines, or the no-blocks error when nothing was ever accumulated. -/
theorem scanGo_eq (d : Direction) (ls : List String) :
    ∀ (cur : Option Direction) (valid : Bool) (acc : String),
      scanGo d ls (decide (cur = some d)) valid acc =
        (if valid = true ∨ sectionGo d ls cur ≠ [] then
          .ok (acc ++ linesToSQL (sectionGo d ls cur))
        else .error .noUpDownBlocks) := by
  induction ls with
  | nil =>
    intro cur valid acc
    have hsec : sectionGo d [] cur = [] := rfl
    rw [hsec]
    cases valid with
    | false =>
      show Except.error MigErr.noUpDownBlocks = _
      simp
    | true =>
      show Except.ok acc = _
      rw [if_pos (Or.inl rfl), linesToSQL, String.append_empty]
  | cons l ls ih =>
    intro cur valid acc
    cases hdir : isDirective l with
    | some dir =>
      by_cases hd : dir = d
      · have hl : scanGo d (l :: ls) (decide (cur = some d)) valid acc =
            scanGo d ls true valid acc := by
          simp [scanGo, hdir, hd]
        have hr : sectionGo d (l :: ls) cur = sectionGo d ls (some dir) := by
          simp [sectionGo, hdir]
        rw [hl, hr]
        have h := ih (some dir) valid acc
        rw [show decide ((some dir : Option Direction) = some d) = true by simp [hd]] at h
        exact h
      · have hl : scanGo d (l :: ls) (decide (cur = some d)) valid acc =
            scanGo d ls false valid acc := by
          simp [scanGo, hdir, hd]
        have hr : sectionGo d (l :: ls) cur = sectionGo d ls (some dir) := by
          simp [sectionGo, hdir]
        rw [hl, hr]
        have h := ih (some dir) valid acc
        rw [show decide ((some dir : Option Direction) = some d) = false by simp [hd]] at h
        exact h
    | none =>
      by_cases hc : cur = some d
      · have hl : scanGo d (l :: ls) (decide (cur = some d)) valid acc =
            scanGo d ls true true (acc ++ l ++ "\n") := by
          simp [scanGo, hdir, hc]
        have hr : sectionGo d (l :: ls) cur = l :: sectionGo d ls cur := by
          simp [sectionGo, hdir, hc]
        rw [hl, hr]
        rw [if_pos (Or.inr (by simp))]
        have h := ih cur true (acc ++ l ++ "\n")
        rw [show decide (cur = some d) = true by simp [hc]] at h
        rw [h, if_pos (Or.inl rfl), linesToSQL]
        rw [String.append_assoc, String.append_assoc, String.append_assoc]
      · have hl : scanGo d (l :: ls) (decide (cur = some d)) valid acc =
            scanGo d ls (decide (cur = some d)) valid acc := by
          simp [scanGo, hdir, hc]
        have hr : sectionGo d (l :: ls) cur = sectionGo d ls cur := by
          simp [sectionGo, hdir, hc]
        rw [hl, hr]
        exact ih cur valid acc

theorem readSQLLines_eq (lines : List String) (d : Direction) :
    readSQLLines lines d =
      (if sectionLines d lines ≠ [] then .ok (linesToSQL (sectionLines d lines))
       else .error .noUpDownBlocks) := by
  have h := scanGo_eq d lines Option.none false ""
  rw [show decide ((Option.none : Option Direction) = some d) = false by simp] at h
  unfold readSQLLines sectionLines
  rw [h, String.empty_append]
  simp

/-- C2 counterexample: a text containing both an `!Up` and a `!Down`
directive whose up section holds no lines.  The claim requires `ReadSQL`
for `up` to return exactly the (zero) up-section lines, i.e. an empty SQL
string, but the code returns the no-up-or-down-blocks error because the
`valid` flag is only set when a line is accumulated into the requested
section. -/
theorem c2_empty_section_counterexample :
    isDirective "--- !Up" = some .up ∧
    isDirective "--- !Down" = some .down ∧
    sectionLines .up ["--- !Up", "--- !Down", "drop table samples"] = [] ∧
    readSQLLines ["--- !Up", "--- !Down", "drop table samples"] .up =
      .error .noUpDownBlocks := by
  refine ⟨rfl, rfl, rfl, rfl⟩

/-- C2 (amended): for any migration text containing both an `!Up` and a
`!Down` directive section, provided the requested direction's section
contains at least one line, `ReadSQL` returns exactly the lines of that
section, in order, each followed by a newline — and hence none of the
other section's lines and none of the lines before the first directive. -/
theorem c2_read_sql_round_trip (lines : List String) (d : Direction)
    (_hup : ∃ l ∈ lines, isDirective l = some .up)
    (_hdown : ∃ l ∈ lines, isDirective l = some .down)
    (hne : sectionLines d lines ≠ []) :
    readSQLLines lines d = .ok (linesToSQL (sectionLines d lines)) := by
  rw [readSQLLines_eq, if_pos hne]

/-- C2 witness: the round-trip theorem applied to a concrete two-section
migration text, for the up direction. -/
theorem c2_read_sql_round_trip_witness :
    readSQLLines ["--- !Up", "create table a;", "--- !Down", "drop table a;"] .up =
      .ok (linesToSQL (sectionLines .up
        ["--- !Up", "create table a;", "--- !Down", "drop table a;"])) :=
  c2_read_sql_round_trip _ _
    ⟨"--- !Up", by decide, by decide⟩
    ⟨"--- !Down", by decide, by decide⟩
    (by decide)

theorem sectionGo_of_no_directive (d : Direction) (ls : List String)
    (h : ∀ l ∈ ls, isDirective l = Option.none) :
    sectionGo d ls Option.none = [] := by
  induction ls with
  | nil => rfl
  | cons l ls ih =>
    have hl : isDirective l = Option.none := h l (List.mem_cons_self l ls)
    have hrec := ih (fun x hx => h x (List.mem_cons_of_mem l hx))
    simp [sectionGo, hl, hrec]

/-- C3: for every migration text containing zero `!Up`/`!Down` directive
lines, `ReadSQL` returns the no-up-or-down-blocks error rather than
silently returning an empty SQL string. -/
theorem c3_no_directive_is_error (lines : List String) (d : Direction)
    (h : ∀ l ∈ lines, isDirective l = Option.none) :
    readSQLLines lines d = .error .noUpDownBlocks := by
  rw [readSQLLines_eq]
  unfold sectionLines
  rw [sectionGo_of_no_directive d lines h]
  simp

/-- C3 witness: a concrete SQL text with no directive lines. -/
theorem c3_no_directive_is_error_witness :
    readSQLLines ["create table samples(id int);", ""] .up = .error .noUpDownBlocks :=
  c3_no_directive_is_error _ _ (by decide)

/-- C8: an absent migrations directory yields an empty candidate list and
success, and any other listing error propagates; but an error from reading
a migration file is swallowed by `ReadSQL`, which returns an empty SQL
string and a nil error (`return "", nil` where `return "", err` was
intended), so the third conjunct exhibits the divergence from the claim at
the failing input. -/
theorem c8_source_error_handling :
    Available ⟨.error .notExist, fun _ => .error .notExist⟩ .up = .ok [] ∧
    Available ⟨.error (.other "permission denied"), fun _ => .error .notExist⟩ .up =
      .error (.invalidDirectory "invalid migrations directory: permission denied") ∧
    ReadSQL (.error (.other "permission denied")) .up = .ok "" := by
  refine ⟨rfl, rfl, rfl⟩

/-- C1: applying migration `1-a.sql` up with embedded rollbacks enabled on
an empty database leaves the freshly inserted tracking row with a NULL
rollback column, even though the file's down section is non-empty and its
trimmed SQL (`drop a;`) was available to store.  `UpdateRollback` finds the
row that `Migrated` just inserted, takes that to mean the rollback is
already stored, and returns without writing; and even on its other path
its `update` statement only targets pre-existing rows, as the final
conjunct shows on an empty table. -/
theorem c1_rollback_never_stored :
    Migrated ⟨exReader, "sql", .up, Latest, true⟩ exDbEmpty "sql/1-a.sql" =
      .ok ⟨[⟨"1-a.sql", Option.none⟩], [], 0, []⟩ ∧
    ReadSQL (exReader.read "sql/1-a.sql") .down = .ok "drop a;\n" ∧
    trimSpace "drop a;\n" = "drop a;" ∧
    UpdateRollback ⟨exReader, "sql", .up, Latest, true⟩ exDbEmpty "sql/1-a.sql" =
      .ok exDbEmpty := by
  refine ⟨by decide, by decide, by decide, by decide⟩

/-- C10: on the `postgres/std` transaction wrapper, the first `Close` of a
fresh transaction rolls back and returns nil, but a second `Close` reads
`depth[len(depth)-1]` on an emptied stack and crashes (modelled as
`Option.none`); the same happens after `Commit` followed by two `Close`
calls.  The `sqlite` wrapper, by contrast, returns nil after a commit and
the distinct `sql.ErrTxDone` on a repeated close. -/
theorem c10_repeated_close_crashes :
    stdClose newStdTx = some (Option.none, ⟨.rolledBackU, [], true⟩) ∧
    stdClose ⟨.rolledBackU, [], true⟩ = Option.none ∧
    stdCommit newStdTx = some (Option.none, ⟨.committedU, [.commit], false⟩) ∧
    stdClose ⟨.committedU, [.commit], false⟩ = some (Option.none, ⟨.committedU, [], false⟩) ∧
    stdClose ⟨.committedU, [], false⟩ = Option.none ∧
    liteClose (liteCommit newLiteTx).2 = (Option.none, ⟨.committedU, false, 1, false⟩) ∧
    liteClose (liteClose newLiteTx).2 =
      (some .errTxDone, ⟨.rolledBackU, false, 0, false⟩) := by
  refine ⟨by decide, by decide, by decide, by decide, by decide, by decide, by decide⟩

/-- C9 counterexample: a valid, absent schema combined with a blank table
name.  `CreateMetadata` issues the schema existence query and executes the
`create schema` DDL before `metadataName` rejects the blank table name, so
the validation error is not returned before DDL is executed or the
database touched, as the claim requires. -/
theorem c9_ddl_before_validation_counterexample :
    (CreateMetadata ⟨[], [], [], 0⟩ "myschema" "").2 = .error .tableNameRequired ∧
    (CreateMetadata ⟨[], [], [], 0⟩ "myschema" "").1.ddl =
      ["create schema if not exists myschema"] ∧
    (CreateMetadata ⟨[], [], [], 0⟩ "myschema" "").1.queries = 1 := by
  refine ⟨by decide, by decide, by decide⟩

/-- C9 (amended): an invalid non-empty schema name is rejected before the
database is touched in any way; a blank or invalid table name is rejected
before the metadata-table DDL runs (the relations are untouched and the
only DDL possibly executed first is the schema creation). -/
theorem c9_validation_order (st : PgDb) (schema table : String) :
    (schema ≠ "" → validObjName schema = false →
      CreateMetadata st schema table = (st, .error .invalidSchemaName)) ∧
    ((schema = "" ∨ validObjName schema = true) →
      (table = "" ∨ validObjName table = false) →
      (CreateMetadata st schema table).2 =
        .error (if table = "" then .tableNameRequired else .invalidTableName) ∧
      (CreateMetadata st schema table).1.relations = st.relations ∧
      ((CreateMetadata st schema table).1.ddl = st.ddl ∨
        (CreateMetadata st schema table).1.ddl =
          st.ddl ++ ["create schema if not exists " ++ schema])) := by
  constructor
  · intro hne hbad
    simp [CreateMetadata, createSchemaStmt, hne, hbad]
  · intro hschema htable
    have hname : metadataName schema table =
        .error (if table = "" then .tableNameRequired else .invalidTableName) := by
      rcases hschema with h | h
      · rcases htable with ht | ht
        · simp [metadataName, h, ht]
        · rcases eq_or_ne table "" with ht2 | ht2
          · simp [metadataName, h, ht2]
          · simp [metadataName, h, ht, ht2]
      · rcases htable with ht | ht
        · simp [metadataName, h, ht]
        · rcases eq_or_ne table "" with ht2 | ht2
          · simp [metadataName, h, ht2]
          · simp [metadataName, h, ht, ht2]
    rcases eq_or_ne schema "" with hs | hs
    · subst hs
      simp [CreateMetadata, createSchemaStmt, hname]
    · have hvalid : validObjName schema = true := by
        rcases hschema with h | h
        · exact absurd h hs
        · exact h
      have hstmt : createSchemaStmt schema =
          .ok ("create schema if not exists " ++ schema) := by
        simp [createSchemaStmt, hs, hvalid]
      have hnonempty : ("create schema if not exists " ++ schema) ≠ "" := by
        intro h
        have := congrArg String.data h
        simp at this
      simp only [CreateMetadata, hstmt, hname]
      by_cases hmem : schema ∈ st.schemas <;>
        simp [missingMetadataSchema, hs, hnonempty, hmem]

theorem shouldRun_meta_only (d : Direction) (r : Int) (db1 db2 : Db) (p : String)
    (h : db1.meta = db2.meta) : ShouldRun d r db1 p = ShouldRun d r db2 p := by
  unfold ShouldRun isMigrated
  rw [h]

theorem execSql_fail (db : Db) (s : String) (h : db.failOn.contains s = true) :
    execSql db s = .error (execMsg s) := by
  have h2 : s ∈ db.failOn := by simpa using h
  simp [execSql, h2]

/-- C4: if a candidate's `ReadAndApply` fails, the run aborts immediately —
the loop returns that error with the database exactly as the preceding
committed candidates left it, and no subsequent candidate is attempted;
and when the failure is the SQL body's execution, the returned error is
the wrapped one naming the migration path, the direction and the
underlying error. -/
theorem c4_exec_failure_aborts (m : MigCtx) (db : Db) (c : String) (cs : List String) :
    (∀ e : MigErr, ReadAndApply m db (pathOf m.directory c) = .error e →
      applyLoop m db (c :: cs) = (db, some e)) ∧
    (∀ SQL : String,
      ShouldRun m.direction m.revision db (pathOf m.directory c) = true →
      ReadSQL (m.reader.read (pathOf m.directory c)) m.direction = .ok SQL →
      db.failOn.contains SQL = true →
      ReadAndApply m db (pathOf m.directory c) =
        .error (.execFailed (pathOf m.directory c) m.direction (execMsg SQL))) := by
  constructor
  · intro e h
    simp [applyLoop, h]
  · intro SQL h1 h2 h3
    have h1' : ShouldRun m.direction m.revision {db with txs := db.txs + 1}
        (pathOf m.directory c) = true := by
      rw [shouldRun_meta_only m.direction m.revision {db with txs := db.txs + 1} db
        (pathOf m.directory c) rfl]
      exact h1
    have he : execSql {db with txs := db.txs + 1} SQL = .error (execMsg SQL) :=
      execSql_fail _ _ h3
    simp [ReadAndApply, h1', h2, he]

/-- C4 witness: the abort-and-wrap theorem at a concrete failing migration:
the second candidate is never attempted and the database is unchanged. -/
theorem c4_exec_failure_aborts_witness :
    applyLoop failCtx exDbFail ["1-a.sql", "2-x.sql"] =
      (exDbFail, some (.execFailed "sql/1-a.sql" .up (execMsg "boom;\n"))) := by
  have h := c4_exec_failure_aborts failCtx exDbFail "1-a.sql" ["2-x.sql"]
  exact h.1 _ (h.2 "boom;\n" (by decide) (by decide) (by decide))

/-- C5: `ShouldRun` returns true in the up direction exactly when the
revision parses, is within range (or the target is the `Latest` sentinel)
and the migration is not recorded as applied; in the down direction
exactly when the revision parses, exceeds the target and the migration is
recorded as applied; it returns false whenever the revision fails to
parse, and always for the `none` direction. -/
theorem c5_should_run_characterization (db : Db) (target : Int) (migration : String) :
    (ShouldRun .up target db migration = true ↔
      ∃ v, Revision migration = .ok v ∧ (target = Latest ∨ v ≤ target) ∧
        isMigrated db migration = false) ∧
    (ShouldRun .down target db migration = true ↔
      ∃ v, Revision migration = .ok v ∧ target < v ∧ isMigrated db migration = true) ∧
    (∀ e, Revision migration = .error e →
      ∀ d, ShouldRun d target db migration = false) ∧
    ShouldRun .none target db migration = false := by
  refine ⟨?_, ?_, ?_, ?_⟩
  · cases hrev : Revision migration with
    | error e => simp [ShouldRun, hrev]
    | ok v => simp [ShouldRun, hrev, IsUp, Latest]
  · cases hrev : Revision migration with
    | error e => simp [ShouldRun, hrev]
    | ok v => simp [ShouldRun, hrev, IsDown]
  · intro e hrev d
    cases d <;> simp [ShouldRun, hrev]
  · cases hrev : Revision migration with
    | error e => simp [ShouldRun, hrev]
    | ok v => simp [ShouldRun, hrev]

/-- C5 witness: the characterization applied at concrete candidates for
all three outcomes. -/
theorem c5_should_run_characterization_witness :
    ShouldRun .up 2 exDbGap "sql/2-b.sql" = true ∧
    ShouldRun .down 2 exDbGap "sql/3-c.sql" = true ∧
    ShouldRun .up 2 exDbGap "sql/nodash.sql" = false :=
  ⟨(c5_should_run_characterization exDbGap 2 "sql/2-b.sql").1.mpr
      ⟨2, by decide, Or.inr (by decide), by decide⟩,
   (c5_should_run_characterization exDbGap 2 "sql/3-c.sql").2.1.mpr
      ⟨3, by decide, by decide, by decide⟩,
   (c5_should_run_characterization exDbGap 2 "sql/nodash.sql").2.2.1
      (.invalidFilename "sql/nodash.sql") (by decide) .up⟩

theorem lookupRollback_meta_only (db1 db2 : Db) (h : db1.meta = db2.meta) (mg : String) :
    lookupRollback db1 mg = lookupRollback db2 mg := by
  unfold lookupRollback
  rw [h]

/-- C6: the embedded-rollback pass feeds the applied identifiers to the
loop in descending revision order; each identifier is handled in a fresh
transaction (the transaction counter advances even on a skip); an
identifier whose revision is at or below the target stops the whole pass
without error; and a not-found rollback lookup is skipped — the call
returns success with the database unchanged apart from the transaction
that was opened and rolled back. -/
theorem c6_rollback_reconciliation (target : Int) (db : Db) (mg : String) :
    ApplyRollbacks target db = rollbackLoop target db (sortDown (Applied db)) ∧
    List.Sorted downRel (sortDown (Applied db)) ∧
    (∀ v, Revision mg = .ok v → v ≤ target →
      RollbackOne target db mg = .error .rollbackComplete ∧
      ∀ ms, rollbackLoop target db (mg :: ms) = (db, Option.none)) ∧
    (∀ v, Revision mg = .ok v → target < v → lookupRollback db mg = Option.none →
      RollbackOne target db mg = .ok {db with txs := db.txs + 1}) := by
  refine ⟨rfl, List.sorted_insertionSort downRel (Applied db), ?_, ?_⟩
  · intro v hv hle
    have h1 : RollbackOne target db mg = .error .rollbackComplete := by
      simp [RollbackOne, hv, hle]
    exact ⟨h1, fun ms => by simp [rollbackLoop, h1]⟩
  · intro v hv hgt hlk
    have hnle : ¬ v ≤ target := not_le.mpr hgt
    have hlk2 : lookupRollback {db with txs := db.txs + 1} mg = Option.none := by
      rw [lookupRollback_meta_only {db with txs := db.txs + 1} db rfl]
      exact hlk
    simp [RollbackOne, hv, hnle, hlk2]

/-- C6 witness: the reconciliation theorem at a concrete state — stopping
at revision 1 with target 2, and skipping an identifier with no metadata
row. -/
theorem c6_rollback_reconciliation_witness :
    RollbackOne 2 exDbRb "1-a.sql" = .error .rollbackComplete ∧
    rollbackLoop 2 exDbRb ["1-a.sql"] = (exDbRb, Option.none) ∧
    RollbackOne 2 exDbRb "9-z.sql" = .ok {exDbRb with txs := exDbRb.txs + 1} :=
  ⟨((c6_rollback_reconciliation 2 exDbRb "1-a.sql").2.2.1 1 (by decide) (by decide)).1,
   ((c6_rollback_reconciliation 2 exDbRb "1-a.sql").2.2.1 1 (by decide) (by decide)).2 [],
   (c6_rollback_reconciliation 2 exDbRb "9-z.sql").2.2.2 9 (by decide) (by decide) (by decide)⟩

/-- C7 counterexample: from the state where migrations 1 and 3 are applied
and files 1, 2, 3 exist, a first Apply to revision 2 succeeds (it rolls
back 3), but a second Apply to the same revision 2 also succeeds while
executing migration 2's SQL body — the direction flips to up and the gap
candidate 2 now runs, so the second call does not perform zero SQL-body
executions as the claim requires. -/
theorem c7_idempotent_apply_counterexample :
    (Apply exReader "sql" 2 true exDbGap).2 = Option.none ∧
    (Apply exReader "sql" 2 true ((Apply exReader "sql" 2 true exDbGap).1)).2 =
      Option.none ∧
    (Apply exReader "sql" 2 true ((Apply exReader "sql" 2 true exDbGap).1)).1.executed ≠
      ((Apply exReader "sql" 2 true exDbGap).1).executed := by
  refine ⟨by decide, by decide, by decide⟩

theorem foldl_latest_mem (l : List MetaRow) :
    ∀ init : String,
      l.foldl (fun latest row =>
        if revOr0 latest < revOr0 row.migration then row.migration else latest) init = init ∨
      ∃ row ∈ l,
        l.foldl (fun latest row =>
          if revOr0 latest < revOr0 row.migration then row.migration else latest) init =
          row.migration := by
  induction l with
  | nil => intro init; exact Or.inl rfl
  | cons r l ih =>
    intro init
    simp only [List.foldl_cons]
    by_cases hlt : revOr0 init < revOr0 r.migration
    · rcases ih (if revOr0 init < revOr0 r.migration then r.migration else init) with h | ⟨row, hm, he⟩
      · right
        refine ⟨r, List.mem_cons_self r l, ?_⟩
        rw [h, if_pos hlt]
      · exact Or.inr ⟨row, List.mem_cons_of_mem r hm, he⟩
    · rcases ih (if revOr0 init < revOr0 r.migration then r.migration else init) with h | ⟨row, hm, he⟩
      · left
        rw [h, if_neg hlt]
      · exact Or.inr ⟨row, List.mem_cons_of_mem r hm, he⟩

theorem latestMigration_mem (db : Db) :
    LatestMigration db = "" ∨
      ∃ row ∈ db.meta, LatestMigration db = row.migration :=
  foldl_latest_mem db.meta ""

theorem rowBelow_spec (target : Int) (row : MetaRow) (h : rowBelow target row = true) :
    ∃ v, Revision row.migration = .ok v ∧ v ≤ target := by
  unfold rowBelow at h
  cases hrev : Revision row.migration with
  | error e => rw [hrev] at h; simp at h
  | ok v =>
    rw [hrev] at h
    exact ⟨v, rfl, by simpa using h⟩

theorem moving_not_down (db : Db) (R : Int) (hne : R ≠ Latest)
    (h : ∀ row ∈ db.meta, ∃ v, Revision row.migration = .ok v ∧ v ≤ R) :
    Moving db R = .up ∨ Moving db R = .none := by
  unfold Moving
  rw [if_neg hne]
  by_cases hL : LatestMigration db = ""
  · rw [if_pos hL]
    exact Or.inl rfl
  · rw [if_neg hL]
    rcases latestMigration_mem db with h0 | ⟨row, hm, heq⟩
    · exact absurd h0 hL
    · obtain ⟨v, hv, hle⟩ := h row hm
      rw [heq, hv]
      by_cases hvR : v < R
      · left
        simp [hvR]
      · right
        simp [hvR, not_lt.mpr hle]

theorem shouldRun_up_false_of_covered (db : Db) (R : Int) (p : String)
    (h : upToDateFor db R p = true) : ShouldRun .up R db p = false := by
  unfold upToDateFor at h
  cases hrev : Revision p with
  | error e => simp [ShouldRun, hrev]
  | ok v =>
    simp only [hrev] at h
    cases hup : IsUp v R with
    | false => simp [ShouldRun, hrev, hup]
    | true =>
      rw [hup] at h
      simp only [Bool.not_true, Bool.false_or] at h
      simp [ShouldRun, hrev, hup, h]

theorem shouldRun_none_false (db : Db) (R : Int) (p : String) :
    ShouldRun .none R db p = false := by
  unfold ShouldRun
  cases hrev : Revision p <;> rfl

theorem applyLoop_skip (m : MigCtx) :
    ∀ (cands : List String) (db : Db),
      (∀ c ∈ cands, ShouldRun m.direction m.revision db (pathOf m.directory c) = false) →
      ∃ t, applyLoop m db cands = ({db with txs := t}, Option.none) := by
  intro cands
  induction cands with
  | nil =>
    intro db _
    exact ⟨db.txs, rfl⟩
  | cons c cs ih =>
    intro db h
    have hc : ShouldRun m.direction m.revision {db with txs := db.txs + 1}
        (pathOf m.directory c) = false := by
      rw [shouldRun_meta_only m.direction m.revision {db with txs := db.txs + 1} db
        (pathOf m.directory c) rfl]
      exact h c (List.mem_cons_self c cs)
    have hr : ReadAndApply m db (pathOf m.directory c) = .ok {db with txs := db.txs + 1} := by
      simp [ReadAndApply, hc]
    obtain ⟨t, ht⟩ := ih {db with txs := db.txs + 1} (fun x hx => by
      rw [shouldRun_meta_only m.direction m.revision {db with txs := db.txs + 1} db
        (pathOf m.directory x) rfl]
      exact h x (List.mem_cons_of_mem c hx))
    refine ⟨t, ?_⟩
    have hstep : applyLoop m db (c :: cs) = applyLoop m {db with txs := db.txs + 1} cs := by
      simp [applyLoop, hr]
    rw [hstep, ht]

theorem rollbackLoop_stop (target : Int) (db : Db) (l : List String)
    (h : ∀ x ∈ l, ∃ v, Revision x = .ok v ∧ v ≤ target) :
    rollbackLoop target db l = (db, Option.none) := by
  cases l with
  | nil => rfl
  | cons x xs =>
    obtain ⟨v, hv, hle⟩ := h x (List.mem_cons_self x xs)
    have h1 : RollbackOne target db x = .error .rollbackComplete := by
      simp [RollbackOne, hv, hle]
    simp [rollbackLoop, h1]

/-- C7 (amended): a second Apply with the same target performs zero SQL
body executions and succeeds, provided the state left by the first Apply
covers every up-candidate (each `.sql` candidate whose revision parses in
range is recorded applied) and every applied row's revision parses and
does not exceed the resolved target.  These conditions always hold after
an up-direction or no-op Apply with the same file set; the counterexample
shows they can fail after a down-direction Apply over a gapped file set,
where the claim as stated is false. -/
theorem c7_second_apply_no_executions (reader : Reader) (directory : String) (R : Int)
    (rollbacks : Bool) (db : Db) (fs : List String)
    (hfs : reader.files = .ok fs)
    (hcov : ∀ c ∈ fs.filter (fun n => hasSqlSuffix n),
      upToDateFor db R (pathOf directory c) = true)
    (hrows : ∀ row ∈ db.meta,
      rowBelow (if R = Latest then LatestRevision reader else R) row = true) :
    (Apply reader directory R rollbacks db).2 = Option.none ∧
    (Apply reader directory R rollbacks db).1.executed = db.executed := by
  have hdir : Moving db R = .up ∨ Moving db R = .none := by
    by_cases hRL : R = Latest
    · left
      unfold Moving
      rw [if_pos hRL]
    · refine moving_not_down db R hRL (fun row hm => ?_)
      have := hrows row hm
      rw [if_neg hRL] at this
      exact rowBelow_spec R row this
  have hndown : Moving db R ≠ .down := by
    rcases hdir with h | h <;> rw [h] <;> intro hc <;> cases hc
  have havail : Available reader (Moving db R) =
      .ok (sortUp (fs.filter (fun n => hasSqlSuffix n))) := by
    rcases hdir with h | h <;> rw [h] <;> simp [Available, hfs]
  have hskip : ∀ c ∈ sortUp (fs.filter (fun n => hasSqlSuffix n)),
      ShouldRun (Moving db R) R db (pathOf directory c) = false := by
    intro c hc
    have hc2 : c ∈ fs.filter (fun n => hasSqlSuffix n) := by
      simpa [sortUp] using hc
    rcases hdir with h | h <;> rw [h]
    · exact shouldRun_up_false_of_covered db R _ (hcov c hc2)
    · exact shouldRun_none_false db R _
  obtain ⟨t, hloop⟩ :=
    applyLoop_skip ⟨reader, directory, Moving db R, R, rollbacks⟩
      (sortUp (fs.filter (fun n => hasSqlSuffix n))) db hskip
  have hroll : ∀ db2 : Db, db2.meta = db.meta →
      HandleEmbeddedRollbacks reader R db2 = (db2, Option.none) := by
    intro db2 hmeta
    unfold HandleEmbeddedRollbacks ApplyRollbacks
    refine rollbackLoop_stop _ db2 _ (fun x hx => ?_)
    have hx2 : x ∈ Applied db2 := by
      simpa [sortDown] using hx
    unfold Applied at hx2
    rw [hmeta] at hx2
    obtain ⟨row, hm, heq⟩ := List.mem_map.mp hx2
    have := hrows row hm
    obtain ⟨v, hv, hle⟩ :=
      rowBelow_spec (if R = Latest then LatestRevision reader else R) row this
    exact ⟨v, heq ▸ hv, hle⟩
  simp only [Apply, havail, hloop]
  cases rollbacks with
  | false => exact ⟨rfl, rfl⟩
  | true =>
    rw [if_pos rfl, hroll {db with txs := t} rfl]
    exact ⟨rfl, rfl⟩

/-- C7 witness: the amended theorem at a concrete covered state — all
candidates at or below revision 1 applied, none above. -/
theorem c7_second_apply_no_executions_witness :
    (Apply exReader "sql" 1
      true ⟨[⟨"1-a.sql", Option.none⟩], [], 0, []⟩).2 = Option.none ∧
    (Apply exReader "sql" 1
      true ⟨[⟨"1-a.sql", Option.none⟩], [], 0, []⟩).1.executed = [] :=
  c7_second_apply_no_executions exReader "sql" 1 true
    ⟨[⟨"1-a.sql", Option.none⟩], [], 0, []⟩
    ["1-a.sql", "2-b.sql", "3-c.sql"] (by decide) (by decide) (by decide)


/-- C9 witness: the amended theorem applied at concrete inputs, one per
branch. -/
theorem c9_validation_order_witness :
    CreateMetadata ⟨[], [], [], 0⟩ "9bad" "t" = (⟨[], [], [], 0⟩, .error .invalidSchemaName) ∧
    (CreateMetadata ⟨[], [], [], 0⟩ "" "bad name").2 = .error .invalidTableName :=
  ⟨(c9_validation_order ⟨[], [], [], 0⟩ "9bad" "t").1 (by decide) (by decide),
   by
    have h := ((c9_validation_order ⟨[], [], [], 0⟩ "" "bad name").2
      (Or.inl rfl) (Or.inr (by decide))).1
    simpa using h⟩

end Drawbridge
